import Mathlib

/-!
Verification of the IntegrityAI resume-analysis core.

This file gives a shallow embedding of the scoring pipeline implemented in
`src/lib/ats-engine.ts`, `src/lib/ai-analysis.ts` and `src/lib/resume-parser.ts`
of the repository, and proves or refutes the frozen specification claims about
it.

Modelling conventions:
* JavaScript strings are modelled as Lean `String`/`List Char` (all inputs of
  interest are ASCII; `Char.toLower` agrees with JS `toLowerCase` on ASCII).
* JavaScript numbers are modelled as exact rationals `ℚ`.  The only place the
  engine can produce `NaN` is the division `densityScore / keywords.length`
  in `calculateKeywordScore` (0/0 when the keyword list is empty); `NaN` is
  modelled by `Option ℚ` with `none` standing for `NaN`, and the JS comparison
  semantics (`NaN < x`, `NaN ≥ x` are false) are modelled on `Option ℚ`.
* `Math.round` is `fun x => ⌊x + 1/2⌋` (JS rounds half towards +∞; all scores
  here are non-negative).
* The `natural` npm library is external to the repository, so its pieces are
  modelled from the spec: its `LevenshteinDistance` as unit-cost edit distance
  and its TF-IDF term list as an abstract `List (String × ℚ)` parameter.
-/

/-- ASCII whitespace recognised by the JS `\s` character class and `trim`
(space, tab, newline, carriage return, vertical tab, form feed). -/
def isJsWs (c : Char) : Bool :=
  c = ' ' || c = '\t' || c = '\n' || c = '\r' || c = Char.ofNat 11 || c = Char.ofNat 12

/-- JS `String.prototype.toLowerCase` restricted to ASCII. -/
def jsToLower (s : String) : String :=
  ⟨s.data.map Char.toLower⟩

/-- Removes leading and trailing JS whitespace from a character list. -/
def trimChars (cs : List Char) : List Char :=
  ((cs.dropWhile isJsWs).reverse.dropWhile isJsWs).reverse

/-- JS `String.prototype.trim`. -/
def jsTrim (s : String) : String :=
  ⟨trimChars s.data⟩

/-- Tests whether `needle` is a prefix of `hay` (character-exact). -/
def listStarts : List Char → List Char → Bool
  | [], _ => true
  | _ :: _, [] => false
  | c :: cs, d :: ds => c = d && listStarts cs ds

/-- JS `String.prototype.includes`: `needle` occurs as a contiguous substring
of `hay`. -/
def listHas : List Char → List Char → Bool
  | [], needle => needle.isEmpty
  | c :: cs, needle => listStarts needle (c :: cs) || listHas cs needle

/-- Case-insensitive prefix test (both sides compared through `Char.toLower`),
modelling a regex literal under the `i` flag. -/
def ciStarts : List Char → List Char → Bool
  | [], _ => true
  | _ :: _, [] => false
  | c :: cs, d :: ds => c.toLower = d.toLower && ciStarts cs ds

/-- Length of the maximal run of JS whitespace at the head of the list. -/
def wsCount (cs : List Char) : Nat :=
  (cs.takeWhile isJsWs).length

/-- Fuel-indexed unit-cost Levenshtein edit distance on character lists.
The fuel only drives structural termination; `lev` below supplies enough
fuel for the recursion to be the textbook one. -/
def levFuel : Nat → List Char → List Char → Nat
  | 0, _, ys => ys.length
  | _ + 1, [], ys => ys.length
  | _ + 1, x :: xs, [] => (x :: xs).length
  | fuel + 1, x :: xs, y :: ys =>
    if x = y then levFuel fuel xs ys
    else 1 + min (min (levFuel fuel xs (y :: ys)) (levFuel fuel (x :: xs) ys))
      (levFuel fuel xs ys)

/-- Modelled from the spec: the `natural` library's `LevenshteinDistance`
with its default unit insertion/deletion/substitution costs (the library is
external to the repository; §4.3 of the spec describes it as
`levenshtein(a,b)`). -/
def lev (xs ys : List Char) : Nat :=
  levFuel (xs.length + ys.length) xs ys

/-! ## Skill normalisation and fuzzy matching (`ats-engine.ts`) -/

/-- The static synonym table of `skillsMatch` (`ats-engine.ts` lines 360-371).
Only the variant arrays are consulted by the code, so the object keys are
dropped. -/
def variations : List (List String) := [
  [("js"), ("javascript"), ("ecmascript")],
  [("ts"), ("typescript")],
  [("py"), ("python")],
  [("reactjs"), ("react.js"), ("react")],
  [("nodejs"), ("node.js"), ("node")],
  [("mongo"), ("mongodb")],
  [("postgres"), ("postgresql"), ("psql")],
  [("amazon web services"), ("aws")],
  [("google cloud platform"), ("gcp"), ("google cloud")],
  [("cicd"), ("ci/cd"), ("continuous integration")]]

/-- The edit-distance similarity test of `skillsMatch`:
`1 - LevenshteinDistance(s1,s2) / max(len, len) > 0.85`.  When both strings
are empty the JS code divides 0/0 and compares `NaN > 0.85`, which is false;
that case is the `m = 0` branch (it is unreachable from `skillsMatch`, whose
exact-equality check fires first). -/
def jsLevSimilar (s1 s2 : String) : Bool :=
  let d := lev s1.data s2.data
  let m := max s1.data.length s2.data.length
  if m = 0 then false else decide ((1 : ℚ) - (d : ℚ) / (m : ℚ) > 0.85)

/-- Integer-arithmetic form of `jsLevSimilar`, used so that concrete inputs
can be evaluated by `decide` (rational arithmetic does not reduce in the
kernel). -/
def levSimilarK (s1 s2 : String) : Bool :=
  let d := lev s1.data s2.data
  let m := max s1.data.length s2.data.length
  if m = 0 then false else decide (20 * d < 3 * m)

/-- Function `skillsMatch` from `ats-engine.ts` (lines 349-385): exact match, mutual
substring, synonym table, then Levenshtein similarity; the source's early
`return true`s are the disjuncts in order. -/
def skillsMatch (skill1 skill2 : String) : Bool :=
  let s1 := jsTrim (jsToLower skill1)
  let s2 := jsTrim (jsToLower skill2)
  decide (s1 = s2)
    || (listHas s1.data s2.data || listHas s2.data s1.data)
    || variations.any (fun vs => vs.contains s1 && vs.contains s2)
    || jsLevSimilar s1 s2

/-- Characters kept by `normalizeSkills`' `replace(/[^a-z0-9\s+#.]/gi, '')`:
letters (the `i` flag keeps both cases), digits, whitespace, `+`, `#`, `.`. -/
def keepNormChar (c : Char) : Bool :=
  ('a' ≤ c && c ≤ 'z') || ('A' ≤ c && c ≤ 'Z') || ('0' ≤ c && c ≤ '9')
    || isJsWs c || c = '+' || c = '#' || c = '.'

/-- Function `normalizeSkills` from `ats-engine.ts` (lines 338-344): lower-case, trim,
strip characters outside `[a-z0-9\s+#.]`. -/
def normalizeSkills (skills : List String) : List String :=
  skills.map (fun skill => ⟨(jsTrim (jsToLower skill)).data.filter keepNormChar⟩)

/-! ## Data model (`ats-engine.ts` interfaces) -/

/-- Structure `ResumeData` from `ats-engine.ts`. -/
structure ResumeData where
  content : String
  skills : List String
  experience : List String
  education : List String
  projects : List String
deriving DecidableEq

/-- Structure `JobDescriptionData` from `ats-engine.ts` (the optional `experience`
field is never read by the scoring code and is omitted). -/
structure JobDescriptionData where
  description : String
  requiredSkills : List String
  preferredSkills : List String
  keywords : List String
deriving DecidableEq

/-- Result of `calculateSkillsScore`. -/
structure SkillsAnalysis where
  score : ℚ
  matched : List String
  missing : List String
deriving DecidableEq

/-- Result of `calculateExperienceScore`. -/
structure ExperienceAnalysis where
  score : ℚ
  relevantTerms : List String
  matched : List String
deriving DecidableEq

/-- Result of `calculateKeywordScore`; `score = none` models `NaN`. -/
structure KeywordAnalysis where
  score : Option ℚ
  matched : List String
  missing : List String
deriving DecidableEq

/-- Result of `calculateFormattingScore`. -/
structure FormattingAnalysis where
  score : ℚ
  issues : List String
deriving DecidableEq

/-- Structure `ATSScoreResult` from `ats-engine.ts`.  The overall and keyword scores are
`Option` because they are `NaN` when the job's keyword list is empty. -/
structure ATSScoreResult where
  overallScore : Option ℤ
  skillsScore : ℤ
  experienceScore : ℤ
  keywordScore : Option ℤ
  formattingScore : ℤ
  matchedSkills : List String
  missingSkills : List String
  matchedKeywords : List String
  missingKeywords : List String
  suggestions : List String
deriving DecidableEq

/-- The fixed component weights (`WEIGHTS` in `ats-engine.ts`). -/
structure Weights where
  skills : ℚ
  experience : ℚ
  keywords : ℚ
  formatting : ℚ

/-- The `WEIGHTS` constant: skills 40%, experience 30%, keywords 20%,
formatting 10%. -/
def WEIGHTS : Weights :=
  { skills := 0.40, experience := 0.30, keywords := 0.20, formatting := 0.10 }

/-- JS `Math.round` on a non-NaN number: round half towards positive
infinity. -/
def jsRound (x : ℚ) : ℤ := ⌊x + 1/2⌋

/-- Addition on JS numbers with `NaN` (`none`) absorbing. -/
def oAdd : Option ℚ → Option ℚ → Option ℚ
  | some a, some b => some (a + b)
  | _, _ => none

/-- Multiplication of a JS number by a non-NaN constant. -/
def oMul (x : Option ℚ) (w : ℚ) : Option ℚ := x.map (· * w)

/-- JS `Math.round` lifted to possibly-NaN numbers (`Math.round(NaN) = NaN`). -/
def oRound (x : Option ℚ) : Option ℤ := x.map jsRound

/-- JS `<` where the left operand may be `NaN` (`NaN < c` is false). -/
def oLt (x : Option ℚ) (c : ℚ) : Bool :=
  match x with
  | some v => decide (v < c)
  | none => false

/-- JS `>=` where the left operand may be `NaN` (`NaN >= c` is false). -/
def oGe (x : Option ℚ) (c : ℚ) : Bool :=
  match x with
  | some v => decide (c ≤ v)
  | none => false

/-! ## Skills score (`calculateSkillsScore`, `ats-engine.ts` lines 101-150) -/

/-- The match test of the required/preferred loops:
`resumeSkills.some(resumeSkill => skillsMatch(resumeSkill, jobSkill))`. -/
def skillMatchedBy (resumeSkills : List String) (jobSkill : String) : Bool :=
  resumeSkills.any (fun resumeSkill => skillsMatch resumeSkill jobSkill)

/-- One step of the preferred-skills loop: state is
`(preferredMatched, matched)`. -/
def prefStep (resumeSkills : List String) (st : ℕ × List String)
    (prefSkill : String) : ℕ × List String :=
  if skillMatchedBy resumeSkills prefSkill then
    (st.1 + 1, if st.2.contains prefSkill then st.2 else st.2 ++ [prefSkill])
  else st

/-- The score arithmetic of `calculateSkillsScore`:
`min(100, requiredMatchRatio * 80 + preferredBonus)` over the four counts. -/
def skillsScoreVal (nMatchedInReq nReq nPrefMatched nPref : ℕ) : ℚ :=
  let requiredMatchFrac : ℚ := if nReq > 0 then (nMatchedInReq : ℚ) / (nReq : ℚ) else 0
  let preferredBonus : ℚ :=
    if nPref > 0 then ((nPrefMatched : ℚ) / (nPref : ℚ)) * 20 else 0
  min 100 (requiredMatchFrac * 80 + preferredBonus)

/-- Function `calculateSkillsScore`.  The required-skills loop pushes each normalized
required skill into `matched` or `missing` according to `skillMatchedBy`
(a partition, written with `List.filter`); the preferred loop then appends
matched preferred skills not already present and counts them. -/
def calculateSkillsScore (resume : ResumeData) (jd : JobDescriptionData) :
    SkillsAnalysis :=
  let resumeSkills := normalizeSkills resume.skills
  let requiredSkills := normalizeSkills jd.requiredSkills
  let preferredSkills := normalizeSkills jd.preferredSkills
  let matched0 := requiredSkills.filter (fun s => skillMatchedBy resumeSkills s)
  let missing := requiredSkills.filter (fun s => !(skillMatchedBy resumeSkills s))
  let prefState := preferredSkills.foldl (prefStep resumeSkills) (0, matched0)
  let preferredMatched := prefState.1
  let matched := prefState.2
  { score := skillsScoreVal (matched.filter (fun s => requiredSkills.contains s)).length
      requiredSkills.length preferredMatched preferredSkills.length
    matched := matched
    missing := missing }

/-! ## Experience score (`calculateExperienceScore`, lines 156-195) -/

/-- The score arithmetic of `calculateExperienceScore`:
`totalWeight > 0 ? (matchCount / totalWeight) * 100 : 0`. -/
def expScoreVal (totalWeight matchCount : ℚ) : ℚ :=
  if totalWeight > 0 then (matchCount / totalWeight) * 100 else 0

/-- One step of the experience term loop: state is
`(totalWeight, matchCount)`; a term's weight is always added to the total
and added to the match count when the term occurs in the resume text. -/
def expStep (resumeText : List Char) (a : ℚ × ℚ) (it : String × ℚ) : ℚ × ℚ :=
  (a.1 + it.2, if listHas resumeText (jsToLower it.1).data then a.2 + it.2 else a.2)

/-- Function `calculateExperienceScore`.  The two-document TF-IDF model built by the
external `natural` library is modelled from the spec as the abstract term
list `tfidfTerms` (the job description's terms with their TF-IDF weights, in
the library's sorted order); the function filters terms of length ≤ 3, takes
the top 20, and accumulates matched weight over total weight exactly as the
source does. -/
def calculateExperienceScore (resume : ResumeData) (_jd : JobDescriptionData)
    (tfidfTerms : List (String × ℚ)) : ExperienceAnalysis :=
  let jobTerms := tfidfTerms.filter (fun it => it.1.length > 3)
  let resumeText := jsToLower resume.content
  let acc := (jobTerms.take 20).foldl (expStep resumeText.data) (0, 0)
  { score := expScoreVal acc.1 acc.2
    relevantTerms := (jobTerms.take 10).map (fun t => t.1)
    matched := (jobTerms.filter
      (fun it => listHas resumeText.data (jsToLower it.1).data)).map (fun t => t.1) }

/-! ## Keyword score (`calculateKeywordScore`, lines 200-233) -/

/-- Holds at positions where the JS word-boundary assertion `\b` holds:
exactly one of the neighbouring characters is a word character
(`[A-Za-z0-9_]`), out-of-range counting as non-word. -/
def isWordChar (c : Char) : Bool :=
  ('a' ≤ c && c ≤ 'z') || ('A' ≤ c && c ≤ 'Z') || ('0' ≤ c && c ≤ '9') || c = '_'

/-- Whether the character at index `i` (if any) is a word character. -/
def wordAt (text : List Char) (i : ℕ) : Bool :=
  match text.get? i with
  | some c => isWordChar c
  | none => false

/-- The `\b` assertion between positions `i-1` and `i`. -/
def boundary (text : List Char) : ℕ → Bool
  | 0 => wordAt text 0
  | i + 1 => wordAt text i != wordAt text (i + 1)

/-- A match of `\b<kw>\b` starting at index `i`. -/
def kwMatchAt (text kw : List Char) (i : ℕ) : Bool :=
  boundary text i && listStarts kw (text.drop i) && boundary text (i + kw.length)

/-- Global-regex scan counting matches of `\b<kw>\b`: the engine advances
past each match (by one position for a zero-width match, as JS does). -/
def kwCountAux (text kw : List Char) : ℕ → ℕ → ℕ
  | 0, _ => 0
  | fuel + 1, i =>
    if i > text.length then 0
    else if kwMatchAt text kw i then
      1 + kwCountAux text kw fuel (i + max kw.length 1)
    else kwCountAux text kw fuel (i + 1)

/-- Number of matches of `new RegExp('\\b' + kw + '\\b', 'gi')` in `text`
(both already lower-cased).  Keywords are modelled as regex-literal words;
the source does not escape regex metacharacters, so keywords containing
regex syntax would behave differently there (no claim involves such
keywords). -/
def kwCount (text kw : List Char) : ℕ :=
  kwCountAux text kw (text.length + 2) 0

/-- One step of the keyword loop: state is `(matched, missing, density)`. -/
def kwStep (resumeText : List Char) (st : List String × List String × ℕ)
    (keyword : String) : List String × List String × ℕ :=
  let n := kwCount resumeText keyword.data
  if n > 0 then
    (st.1 ++ [keyword], st.2.1, st.2.2 + min (n * 5) 15)
  else
    (st.1, st.2.1 ++ [keyword], st.2.2)

/-- JS division where `0 / 0` (the only division-by-zero the engine can
perform here) yields `NaN`. -/
def jsDiv (a b : ℚ) : Option ℚ :=
  if b = 0 then none else some (a / b)

/-- The score arithmetic of `calculateKeywordScore`:
`min(100, matchRatio * 70 + densityScore / keywords.length * 30)`, where the
match ratio is guarded for an empty keyword list but the density division is
not. -/
def kwScoreVal (nMatched nKeywords density : ℕ) : Option ℚ :=
  let matchFrac : ℚ :=
    if nKeywords > 0 then (nMatched : ℚ) / (nKeywords : ℚ) else 0
  (jsDiv (density : ℚ) (nKeywords : ℚ)).map
    (fun dq => min 100 (matchFrac * 70 + dq * 30))

/-- Function `calculateKeywordScore`.  For the empty keyword list the source divides
`densityScore / keywords.length = 0 / 0`, so the score is `NaN` (`none`). -/
def calculateKeywordScore (resume : ResumeData) (jd : JobDescriptionData) :
    KeywordAnalysis :=
  let resumeText := (jsToLower resume.content).data
  let keywords := jd.keywords.map jsToLower
  let st := keywords.foldl (kwStep resumeText) ([], [], 0)
  { score := kwScoreVal st.1.length keywords.length st.2.2
    matched := st.1
    missing := st.2.1 }

/-! ## Formatting score (`calculateFormattingScore`, lines 239-286) -/

/-- The action-word vocabulary checked by the formatting scorer. -/
def actionWords : List String :=
  [("achieved"), ("managed"), ("led"), ("developed"), ("created"),
   ("improved"), ("increased"), ("decreased"), ("implemented"),
   ("designed"), ("built"), ("established"), ("launched")]

/-- The score arithmetic of `calculateFormattingScore`: sequential penalties
from 100, floored at 0 (`shortContent` is `content.length < 500`, the other
flags are the positive section/verb conditions of the source). -/
def fmtScoreVal (shortContent hasSkills hasExperience hasEducation
    hasActionWords : Bool) : ℚ :=
  let score0 : ℚ := 100
  let score1 := if shortContent then score0 - 20 else score0
  let score2 := if hasSkills then score1 else score1 - 30
  let score3 := if hasExperience then score2 else score2 - 30
  let score4 := if hasEducation then score3 else score3 - 20
  let score5 := if hasActionWords then score4 else score4 - 10
  max 0 score5

/-- Function `calculateFormattingScore`: starts at 100 and applies the fixed
penalties in source order, collecting an issue string per penalty; the
result is floored at 0. -/
def calculateFormattingScore (resume : ResumeData) : FormattingAnalysis :=
  let shortContent := decide (resume.content.length < 500)
  let hasSkills := decide (resume.skills.length > 0)
  let hasExperience := decide (resume.experience.length > 0)
  let hasEducation := decide (resume.education.length > 0)
  let hasActionWords := actionWords.any
    (fun w => listHas (jsToLower resume.content).data w.data)
  let issues :=
    (if shortContent then [("Resume content is too short")] else [])
    ++ (if hasSkills then [] else [("Missing skills section")])
    ++ (if hasExperience then [] else [("Missing experience section")])
    ++ (if hasEducation then [] else [("Missing education section")])
    ++ (if hasActionWords then [] else [("Lacks strong action verbs")])
  { score := fmtScoreVal shortContent hasSkills hasExperience hasEducation
      hasActionWords
    issues := issues }

/-! ## Suggestions and overall score (`generateSuggestions`,
`calculateATSScore`, lines 57-95 and 291-333) -/

/-- Function `generateSuggestions`: the source pushes, in order, a missing-skills
suggestion, a low-experience suggestion, a missing-keywords suggestion, one
suggestion per formatting issue, and a congratulatory suggestion. -/
def generateSuggestions (skillsAnalysis : SkillsAnalysis)
    (experienceAnalysis : ExperienceAnalysis) (keywordAnalysis : KeywordAnalysis)
    (formattingAnalysis : FormattingAnalysis) : List String :=
  (if skillsAnalysis.score < 70 ∧ skillsAnalysis.missing.length > 0 then
    [("Add these critical skills: "
        ++ String.intercalate (", ") (skillsAnalysis.missing.take 5))]
  else [])
  ++ (if experienceAnalysis.score < 60 then
    [("Expand your experience descriptions to include more relevant keywords and achievements")]
  else [])
  ++ (if oLt keywordAnalysis.score 70 ∧ keywordAnalysis.missing.length > 0 then
    [("Include these important keywords: "
        ++ String.intercalate (", ") (keywordAnalysis.missing.take 5))]
  else [])
  ++ formattingAnalysis.issues.map (fun issue => ("Formatting: " ++ issue))
  ++ (if skillsAnalysis.score ≥ 80 ∧ oGe keywordAnalysis.score 80 then
    [("Excellent keyword optimization! Consider quantifying your achievements with metrics.")]
  else [])

/-- Function `calculateATSScore`, the main entry point: component analyses, weighted
overall score rounded once, rounded component scores, matched/missing lists
and suggestions.  `tfidfTerms` abstracts the external TF-IDF model used by
the experience scorer (see `calculateExperienceScore`). -/
def calculateATSScore (resume : ResumeData) (jobDescription : JobDescriptionData)
    (tfidfTerms : List (String × ℚ)) : ATSScoreResult :=
  let skillsAnalysis := calculateSkillsScore resume jobDescription
  let experienceAnalysis := calculateExperienceScore resume jobDescription tfidfTerms
  let keywordAnalysis := calculateKeywordScore resume jobDescription
  let formattingAnalysis := calculateFormattingScore resume
  let overallScore := oRound
    (oAdd (oAdd (oAdd (oMul (some skillsAnalysis.score) WEIGHTS.skills)
        (oMul (some experienceAnalysis.score) WEIGHTS.experience))
      (oMul keywordAnalysis.score WEIGHTS.keywords))
      (oMul (some formattingAnalysis.score) WEIGHTS.formatting))
  { overallScore := overallScore
    skillsScore := jsRound skillsAnalysis.score
    experienceScore := jsRound experienceAnalysis.score
    keywordScore := oRound keywordAnalysis.score
    formattingScore := jsRound formattingAnalysis.score
    matchedSkills := skillsAnalysis.matched
    missingSkills := skillsAnalysis.missing
    matchedKeywords := keywordAnalysis.matched
    missingKeywords := keywordAnalysis.missing
    suggestions := generateSuggestions skillsAnalysis experienceAnalysis
      keywordAnalysis formattingAnalysis }

/-! ## Parsed resume and bullet-point analysis (`resume-parser.ts`,
`ai-analysis.ts`) -/

/-- Contact information of a parsed resume (`ParsedResume.contactInfo`). -/
structure ContactInfo where
  email : Option String
  phone : Option String
  linkedin : Option String
  github : Option String
deriving DecidableEq

/-- Structure `ParsedResume` from `resume-parser.ts`. -/
structure ParsedResume where
  content : String
  skills : List String
  experience : List String
  education : List String
  projects : List String
  contactInfo : Option ContactInfo
deriving DecidableEq

/-- Result of `analyzeBulletPoints` (all arithmetic there is integral). -/
structure BulletAnalysis where
  score : ℤ
  feedback : List String
deriving DecidableEq

/-- The bullet marker class `[•\-*]`. -/
def bulletMarker (c : Char) : Bool :=
  c = '•' || c = '-' || c = '*'

/-- Length consumed by a match of `^[\s]*[•\-*]\s+` at the head of `rest`
(the greedy whitespace runs are forced: the character classes are
disjoint), or `none` if the pattern does not match here. -/
def bulletMatchLen (rest : List Char) : Option ℕ :=
  let k := wsCount rest
  match rest.get? k with
  | some b =>
    if bulletMarker b then
      let w := wsCount (rest.drop (k + 1))
      if w > 0 then some (k + 1 + w) else none
    else none
  | none => none

/-- Global multiline scan of `/^[\s]*[•\-*]\s+/gm`: a match may start only
at the beginning of the text or just after a newline (the `ls` flag), and
the engine resumes after the consumed span. -/
def bulletScanAux : ℕ → List Char → Bool → ℕ
  | 0, _, _ => 0
  | _ + 1, [], _ => 0
  | fuel + 1, c :: cs, ls =>
    match (if ls then bulletMatchLen (c :: cs) else none) with
    | some consumed =>
      1 + bulletScanAux fuel ((c :: cs).drop consumed)
          (decide ((c :: cs).get? (consumed - 1) = some '\n'))
    | none => bulletScanAux fuel cs (decide (c = '\n'))

/-- Number of matches of `content.match(/^[\s]*[•\-*]\s+/gm)`. -/
def bulletCount (cs : List Char) : ℕ :=
  bulletScanAux (cs.length + 1) cs true

/-- JS `content.split('\n')`. -/
def splitLines : List Char → List (List Char)
  | [] => [[]]
  | c :: cs =>
    match splitLines cs with
    | [] => [[]]
    | l :: ls => if c = '\n' then [] :: l :: ls else (c :: l) :: ls

/-- The bullet lines considered for the length checks:
`content.split('\n').filter(l => l.trim().startsWith('-') || l.trim().startsWith('•'))`. -/
def bulletLines (content : List Char) : List (List Char) :=
  (splitLines content).filter
    (fun l => (trimChars l).head? == some '-' || (trimChars l).head? == some '•')

/-- The context-cue regex family `/(?:led|managed|coordinated|oversaw)/gi`. -/
def contextCues : List String :=
  [("led"), ("managed"), ("coordinated"), ("oversaw")]

/-- The action-cue regex family
`/(?:developed|created|implemented|designed|built)/gi`. -/
def actionCues : List String :=
  [("developed"), ("created"), ("implemented"), ("designed"), ("built")]

/-- The result-cue regex family
`/(?:increased|decreased|improved|reduced|achieved)/gi`. -/
def resultCues : List String :=
  [("increased"), ("decreased"), ("improved"), ("reduced"), ("achieved")]

/-- Case-insensitive `regex.test`: some alternative occurs as a substring. -/
def cueTest (cues : List String) (content : String) : Bool :=
  cues.any (fun w => listHas (jsToLower content).data w.data)

/-- The JS comparison `a > b / 2` on the two list lengths (float division in
the source, exact in ℚ). -/
def jsHalfLt (a b : ℕ) : Bool :=
  decide ((a : ℚ) > (b : ℚ) / 2)

/-- Function `analyzeBulletPoints` from `ai-analysis.ts` (lines 183-235): starts at
100; −30 for fewer than 3 bullet-pattern matches in the joined experience
text; −25 for missing action cues; −25 for missing result cues; −10 for
missing context cues; −10 if some bullet line exceeds 150 characters; −10
if more than half of the bullet lines are under 30 characters; floored
at 0. -/
def analyzeBulletPoints (resume : ParsedResume) : BulletAnalysis :=
  let content := String.intercalate ("\n") resume.experience
  let bullets := bulletCount content.data
  let score1 : ℤ := if bullets < 3 then 100 - 30 else 100
  let hasContext := cueTest contextCues content
  let hasAction := cueTest actionCues content
  let hasResult := cueTest resultCues content
  let score2 := if hasAction then score1 else score1 - 25
  let score3 := if hasResult then score2 else score2 - 25
  let score4 := if hasContext then score3 else score3 - 10
  let lines := bulletLines content.data
  let tooLong := lines.filter (fun l => l.length > 150)
  let tooShort := lines.filter (fun l => l.length < 30)
  let score5 := if tooLong.length > 0 then score4 - 10 else score4
  let score6 := if jsHalfLt tooShort.length lines.length then score5 - 10 else score5
  let feedback :=
    (if bullets < 3 then [("Add bullet points to structure your experience")] else [])
    ++ (if hasAction then [] else
      [("Include strong action verbs at the start of each bullet point")])
    ++ (if hasResult then [] else
      [("Add measurable results and outcomes to your accomplishments")])
    ++ (if hasContext then [] else
      [("Provide context about your role and responsibilities")])
    ++ (if tooLong.length > 0 then
      [("Some bullet points are too long - aim for 1-2 lines each")] else [])
    ++ (if jsHalfLt tooShort.length lines.length then
      [("Many bullet points lack detail - expand with specific achievements")] else [])
  { score := max 0 score6, feedback := feedback }

/-! ## Skill extraction (`extractSkills`, `resume-parser.ts` lines 85-155) -/

/-- ASCII letter test (`[A-Za-z]`; with the `i` flag, `[A-Z]` and `[a-z]`
both denote this class). -/
def isAsciiLetter (c : Char) : Bool :=
  ('a' ≤ c && c ≤ 'z') || ('A' ≤ c && c ≤ 'Z')

/-- Deterministic regex tokens for the section-header prefixes of the three
skills-section patterns (each token's greedy consumption is forced because
the neighbouring character classes are disjoint). -/
inductive RTok
  | lit : List Char → RTok
  | wsStar : RTok
  | wsPlus : RTok
  | optCh : Char → RTok

/-- Consume a token sequence at the head of `cs`, returning the number of
characters consumed. -/
def consumeToks : List RTok → List Char → Option ℕ
  | [], _ => some 0
  | RTok.lit l :: ts, cs =>
    if ciStarts l cs then (consumeToks ts (cs.drop l.length)).map (· + l.length)
    else none
  | RTok.wsStar :: ts, cs =>
    let k := wsCount cs
    (consumeToks ts (cs.drop k)).map (· + k)
  | RTok.wsPlus :: ts, cs =>
    let k := wsCount cs
    if k = 0 then none else (consumeToks ts (cs.drop k)).map (· + k)
  | RTok.optCh c :: ts, cs =>
    match cs with
    | d :: rest =>
      if d.toLower = c then (consumeToks ts rest).map (· + 1) else consumeToks ts cs
    | [] => consumeToks ts cs

/-- The lookahead `(?=\n\n|\n[A-Z][a-z]+\s*:|\n(?:experience|education|projects|certifications))`
holding at position `r` of `full` (`ext` enables the third alternative,
present only in the first pattern).  In the second alternative only the
maximal letter run can match, since a shorter run leaves a letter where
`\s*:` must start. -/
def sectionStop (ext : Bool) (full : List Char) (r : ℕ) : Bool :=
  match full.drop r with
  | '\n' :: rest =>
    (rest.head? == some '\n')
    || (decide (2 ≤ (rest.takeWhile isAsciiLetter).length)
        && (((rest.drop (rest.takeWhile isAsciiLetter).length).dropWhile isJsWs).head?
            == some ':'))
    || (ext && ([("experience"), ("education"), ("projects"), ("certifications")].any
        (fun w => ciStarts w.data rest)))
  | _ => false

/-- Smallest lookahead position `≥ lo` (the lazy capture grows forward). -/
def minLook (ext : Bool) (full : List Char) (lo : ℕ) : Option ℕ :=
  ((List.range (full.length + 1)).filter
    (fun r => decide (lo ≤ r) && sectionStop ext full r)).head?

/-- Largest lookahead position in `[lo, hi)` (backtracking a greedy `\s*`
shrinks it from the right). -/
def maxLookIn (ext : Bool) (full : List Char) (lo hi : ℕ) : Option ℕ :=
  ((List.range (full.length + 1)).filter
    (fun r => decide (lo ≤ r) && decide (r < hi) && sectionStop ext full r)).getLast?

/-- End position of the match of `\s*:?\s*([\s\S]*?)(?=…)` whose `\s*:?\s*`
begins at `hdrEnd`: the engine first grows the lazy capture from the
position after the greedy whitespace/colon consumption, then backtracks the
greedy `\s*` runs from the right. -/
def tailSearch (ext : Bool) (full : List Char) (hdrEnd : ℕ) : Option ℕ :=
  let w1 := wsCount (full.drop hdrEnd)
  match full.get? (hdrEnd + w1) with
  | some ':' =>
    let cpos := hdrEnd + w1
    let w2 := wsCount (full.drop (cpos + 1))
    minLook ext full (cpos + 1 + w2) <|> maxLookIn ext full (cpos + 1) (cpos + 1 + w2)
      <|> maxLookIn ext full hdrEnd cpos
  | _ =>
    minLook ext full (hdrEnd + w1) <|> maxLookIn ext full hdrEnd (hdrEnd + w1)

/-- Global scan of one skills-section pattern: try each position, and after
a match resume at its end (`String.prototype.match` with the `g` flag). -/
def scanSectionAux (hdr : List RTok) (ext : Bool) (full : List Char) :
    ℕ → ℕ → List (List Char)
  | 0, _ => []
  | fuel + 1, p =>
    if p > full.length then []
    else match consumeToks hdr (full.drop p) with
      | some h =>
        match tailSearch ext full (p + h) with
        | some e => (full.drop p).take (e - p) :: scanSectionAux hdr ext full fuel e
        | none => scanSectionAux hdr ext full fuel (p + 1)
      | none => scanSectionAux hdr ext full fuel (p + 1)

/-- Header tokens of `/skills?\s*:?\s*(…)/gi` (up to the final `\s*`, which
`tailSearch` handles). -/
def hdrSkills : List RTok :=
  [RTok.lit ("skill").data, RTok.optCh 's', RTok.wsStar, RTok.optCh ':']

/-- Header tokens of `/technical\s+skills?\s*:?\s*(…)/gi`. -/
def hdrTechnical : List RTok :=
  [RTok.lit ("technical").data, RTok.wsPlus, RTok.lit ("skill").data,
   RTok.optCh 's', RTok.wsStar, RTok.optCh ':']

/-- Header tokens of `/core\s+competencies\s*:?\s*(…)/gi`. -/
def hdrCore : List RTok :=
  [RTok.lit ("core").data, RTok.wsPlus, RTok.lit ("competencies").data,
   RTok.wsStar, RTok.optCh ':']

/-- All full-match texts of the three skills-section regexes on `content`,
in source order. -/
def skillsSectionMatches (content : String) : List (List Char) :=
  scanSectionAux hdrSkills true content.data (content.data.length + 1) 0
  ++ scanSectionAux hdrTechnical false content.data (content.data.length + 1) 0
  ++ scanSectionAux hdrCore false content.data (content.data.length + 1) 0

/-- The delimiter class `[,;•\n|]` of `extractSkillsFromText`. -/
def isDelim (c : Char) : Bool :=
  c = ',' || c = ';' || c = '•' || c = '\n' || c = '|'

/-- JS `text.split(/[,;•\n|]/g)`. -/
def splitDelims : List Char → List (List Char)
  | [] => [[]]
  | c :: cs =>
    match splitDelims cs with
    | [] => [[]]
    | l :: ls => if isDelim c then [] :: l :: ls else (c :: l) :: ls

/-- JS `replace(/^[-•*]\s*/, '')`: one leading bullet marker and the following
whitespace run are removed. -/
def stripBullet : List Char → List Char
  | [] => []
  | c :: rest => if bulletMarker c then rest.drop (wsCount rest) else c :: rest

/-- Helper for `replace(/\s+/g, ' ')`: the flag records whether the previous
character was whitespace (a run contributes a single space). -/
def collapseWsAux : Bool → List Char → List Char
  | _, [] => []
  | prevWs, c :: cs =>
    if isJsWs c then
      if prevWs then collapseWsAux true cs else ' ' :: collapseWsAux true cs
    else c :: collapseWsAux false cs

/-- JS `replace(/\s+/g, ' ')`. -/
def collapseWs (cs : List Char) : List Char :=
  collapseWsAux false cs

/-- Function `extractSkillsFromText` from `resume-parser.ts` (lines 136-155): split on
delimiters, trim, strip a leading bullet, collapse whitespace, and keep
fragments of length 2..49. -/
def extractSkillsFromText (text : List Char) : List String :=
  ((splitDelims text).map (fun part => collapseWs (stripBullet (trimChars part)))).filterMap
    (fun cleaned =>
      if cleaned.length > 1 ∧ cleaned.length < 50 then some (⟨cleaned⟩ : String)
      else none)

/-- JS `Set.prototype.add` on an insertion-ordered list. -/
def setAdd (l : List String) (s : String) : List String :=
  if l.contains s then l else l ++ [s]

/-- One step of the whole-document scan of `extractSkills`: a well-known
skill is added when its lower-cased name occurs in the lower-cased
content. -/
def commonStep (lowerContent : List Char) (acc : List String) (skill : String) :
    List String :=
  if listHas lowerContent (jsToLower skill).data then setAdd acc skill else acc

/-- The static well-known-skill vocabulary of `extractSkills`
(`resume-parser.ts` lines 106-120), in source order. -/
def commonSkills : List String :=
  [("JavaScript"), ("TypeScript"), ("Python"), ("Java"), ("C++"), ("C#"),
   ("Ruby"), ("PHP"), ("Go"), ("Rust"), ("Swift"), ("Kotlin"),
   ("React"), ("Angular"), ("Vue"), ("Next.js"), ("Node.js"), ("Express"),
   ("Django"), ("Flask"), ("Spring Boot"),
   ("HTML"), ("CSS"), ("SASS"), ("LESS"), ("Tailwind CSS"), ("Bootstrap"),
   ("PostgreSQL"), ("MySQL"), ("MongoDB"), ("Redis"), ("Elasticsearch"),
   ("DynamoDB"), ("Oracle"), ("SQL Server"),
   ("AWS"), ("Azure"), ("GCP"), ("Docker"), ("Kubernetes"), ("Jenkins"),
   ("GitLab CI"), ("GitHub Actions"), ("Terraform"), ("Ansible"), ("CI/CD"),
   ("Git"), ("REST API"), ("GraphQL"), ("Microservices"), ("Agile"),
   ("Scrum"), ("JIRA"), ("Linux"),
   ("Machine Learning"), ("TensorFlow"), ("PyTorch"), ("AI"), ("NLP"),
   ("Data Science")]

/-- Function `extractSkills` from `resume-parser.ts` (lines 85-131): skills harvested
from dedicated sections, then every well-known skill whose lower-cased name
occurs anywhere in the lower-cased content (raw substring containment), all
unioned into an insertion-ordered set. -/
def extractSkills (content : String) : List String :=
  let fromSections := (skillsSectionMatches content).foldl
    (fun acc m => (extractSkillsFromText m).foldl setAdd acc) []
  let lowerContent := (jsToLower content).data
  commonSkills.foldl (commonStep lowerContent) fromSections

/-! ## Kernel-computable twins used to evaluate concrete inputs -/

/-- Variant of `skillsMatch` with the similarity test in integer form (used for
kernel evaluation; equal to `skillsMatch` by `skillsMatch_eq_K`). -/
def skillsMatchK (skill1 skill2 : String) : Bool :=
  let s1 := jsTrim (jsToLower skill1)
  let s2 := jsTrim (jsToLower skill2)
  decide (s1 = s2)
    || (listHas s1.data s2.data || listHas s2.data s1.data)
    || variations.any (fun vs => vs.contains s1 && vs.contains s2)
    || levSimilarK s1 s2

/-- Variant of `skillMatchedBy` through `skillsMatchK`. -/
def skillMatchedByK (resumeSkills : List String) (jobSkill : String) : Bool :=
  resumeSkills.any (fun resumeSkill => skillsMatchK resumeSkill jobSkill)

/-- Variant of `prefStep` through `skillMatchedByK`. -/
def prefStepK (resumeSkills : List String) (st : ℕ × List String)
    (prefSkill : String) : ℕ × List String :=
  if skillMatchedByK resumeSkills prefSkill then
    (st.1 + 1, if st.2.contains prefSkill then st.2 else st.2 ++ [prefSkill])
  else st

/-! ## Concrete inputs used by counterexamples and witnesses -/

/-- An empty resume. -/
def emptyResume : ResumeData :=
  { content := (""), skills := [], experience := [], education := [], projects := [] }

/-- A job description whose keyword list is empty. -/
def emptyKeywordJob : JobDescriptionData :=
  { description := (""), requiredSkills := [], preferredSkills := [], keywords := [] }

/-- A job description requiring only the skill string `"React"`. -/
def reactRequiredJob : JobDescriptionData :=
  { description := (""), requiredSkills := [("React")], preferredSkills := [],
    keywords := [] }

/-- The resume of the spec's skills scenario (claim C7). -/
def scenarioResume : ResumeData :=
  { content := (""), skills := [("React"), ("Node.js")], experience := [],
    education := [], projects := [] }

/-- The job description of the spec's skills scenario (claim C7). -/
def scenarioJob : JobDescriptionData :=
  { description := (""), requiredSkills := [("React"), ("AWS")],
    preferredSkills := [("Docker")], keywords := [] }

/-- The bullet-point quality score as claim C9 (spec §4.8) words it: −30 for
fewer than 3 bullet lines, −25 for missing action cues, −10 for missing
result cues, −25 for missing context cues, −10 for an over-long bullet
line, −10 when more than half the bullet lines are short; floored at 0.
This definition follows the claim's words, to be compared with
`analyzeBulletPoints`, which follows the source. -/
def specBulletScore (resume : ParsedResume) : ℤ :=
  let content := String.intercalate ("\n") resume.experience
  let lines := bulletLines content.data
  max 0 (100
    - (if bulletCount content.data < 3 then 30 else 0)
    - (if cueTest actionCues content then 0 else 25)
    - (if cueTest resultCues content then 0 else 10)
    - (if cueTest contextCues content then 0 else 25)
    - (if (lines.filter (fun l => l.length > 150)).length > 0 then 10 else 0)
    - (if jsHalfLt (lines.filter (fun l => l.length < 30)).length lines.length
        then 10 else 0))

/-- Three well-formed bullet lines with action and context cues but no
result cues: the code penalises −25 here, the claim's reading −10. -/
def bulletResumeCx : ParsedResume :=
  { content := ("")
    skills := []
    experience :=
      [("- Developed and managed the platform infrastructure"),
       ("- Managed and developed team workflow processes xx"),
       ("- Led and developed the core architecture modules")]
    education := []
    projects := []
    contactInfo := none }

/-- Builds `n` copies of a character list, used to build the keyword-stuffed
witness content. -/
def repList : ℕ → List Char → List Char
  | 0, _ => []
  | n + 1, cs => cs ++ repList n cs

/-- A resume mentioning the keyword `sql` exactly 3 times. -/
def satResume3 : ResumeData :=
  { content := ("sql sql sql"), skills := [], experience := [],
    education := [], projects := [] }

/-- A resume mentioning the keyword `sql` exactly 100 times. -/
def satResume100 : ResumeData :=
  { content := ⟨repList 100 (("sql ").data)⟩, skills := [], experience := [],
    education := [], projects := [] }

/-- A job description supplying the single keyword `sql`. -/
def satJob : JobDescriptionData :=
  { description := (""), requiredSkills := [], preferredSkills := [],
    keywords := [("sql")] }

/-- The five issue strings `calculateFormattingScore` can emit, in order. -/
def allIssueStrings : List String :=
  [("Resume content is too short"), ("Missing skills section"),
   ("Missing experience section"), ("Missing education section"),
   ("Lacks strong action verbs")]

/-! ## Theorems -/
theorem levFuel_nil_right (n : Nat) (xs : List Char) :
    levFuel (n + 1) xs [] = xs.length := by
  cases xs <;> rfl

theorem levFuel_symm (fuel : Nat) : ∀ xs ys : List Char,
    xs.length + ys.length ≤ fuel → levFuel fuel xs ys = levFuel fuel ys xs := by
  induction fuel with
  | zero =>
    intro xs ys h
    have hx : xs = [] := by
      cases xs with
      | nil => rfl
      | cons a l => simp at h
    have hy : ys = [] := by
      cases ys with
      | nil => rfl
      | cons a l => cases xs <;> simp at h
    subst hx; subst hy; rfl
  | succ n ih =>
    intro xs ys h
    cases xs with
    | nil => simp [levFuel, levFuel_nil_right]
    | cons x xs' =>
      cases ys with
      | nil => simp [levFuel, levFuel_nil_right]
      | cons y ys' =>
        simp only [levFuel]
        have hxy : xs'.length + (y :: ys').length ≤ n := by
          simp at h ⊢; omega
        have hyx : (x :: xs').length + ys'.length ≤ n := by
          simp at h ⊢; omega
        have hxs : xs'.length + ys'.length ≤ n := by
          simp at h ⊢; omega
        by_cases hc : x = y
        · subst hc
          simp only [if_pos rfl]
          exact ih xs' ys' hxs
        · rw [if_neg hc, if_neg (fun hyx' => hc hyx'.symm)]
          rw [ih xs' (y :: ys') hxy, ih (x :: xs') ys' hyx, ih xs' ys' hxs]
          rw [Nat.min_comm (levFuel n (y :: ys') xs') (levFuel n ys' (x :: xs'))]

theorem lev_symm (xs ys : List Char) : lev xs ys = lev ys xs := by
  unfold lev
  rw [Nat.add_comm ys.length xs.length]
  exact levFuel_symm (xs.length + ys.length) xs ys le_rfl

theorem jsLevSimilar_eq_levSimilarK : jsLevSimilar = levSimilarK := by
  funext s1 s2
  unfold jsLevSimilar levSimilarK
  by_cases hm : max s1.data.length s2.data.length = 0
  · rw [if_pos hm, if_pos hm]
  · rw [if_neg hm, if_neg hm]
    refine decide_eq_decide.mpr ?_
    set d := lev s1.data s2.data
    set m := max s1.data.length s2.data.length
    have hm' : (0 : ℚ) < m := by
      have : 0 < m := Nat.pos_of_ne_zero hm
      exact_mod_cast this
    rw [gt_iff_lt, show (0.85 : ℚ) = 17/20 by norm_num, lt_sub_iff_add_lt]
    constructor
    · intro h
      have h2 : (d : ℚ) / m < 3/20 := by linarith
      rw [div_lt_iff₀ hm'] at h2
      have h3 : (20 * d : ℚ) < 3 * m := by linarith
      exact_mod_cast h3
    · intro h
      have h2 : (20 * d : ℚ) < 3 * m := by exact_mod_cast h
      have h3 : (d : ℚ) / m < 3/20 := by
        rw [div_lt_iff₀ hm']; linarith
      linarith

theorem jsLevSimilar_symm (s1 s2 : String) :
    jsLevSimilar s1 s2 = jsLevSimilar s2 s1 := by
  unfold jsLevSimilar
  rw [lev_symm, Nat.max_comm]

theorem skillsMatch_symm (a b : String) : skillsMatch a b = skillsMatch b a := by
  simp only [skillsMatch]
  have h1 : decide (jsTrim (jsToLower a) = jsTrim (jsToLower b))
      = decide (jsTrim (jsToLower b) = jsTrim (jsToLower a)) :=
    decide_eq_decide.mpr eq_comm
  have h2 : (fun vs : List String =>
        vs.contains (jsTrim (jsToLower a)) && vs.contains (jsTrim (jsToLower b)))
      = (fun vs : List String =>
        vs.contains (jsTrim (jsToLower b)) && vs.contains (jsTrim (jsToLower a))) := by
    funext vs; exact Bool.and_comm _ _
  rw [h1, h2, jsLevSimilar_symm,
    Bool.or_comm (listHas (jsTrim (jsToLower a)).data (jsTrim (jsToLower b)).data)]

theorem jsHalfLt_eq (a b : ℕ) : jsHalfLt a b = decide (b < 2 * a) := by
  unfold jsHalfLt
  refine decide_eq_decide.mpr ?_
  rw [gt_iff_lt, div_lt_iff₀ (by norm_num : (0:ℚ) < 2)]
  constructor
  · intro h
    have h2 : b < a * 2 := by exact_mod_cast h
    omega
  · intro h
    have h2 : (b : ℚ) < a * 2 := by exact_mod_cast (by omega : b < a * 2)
    linarith

theorem skillsMatch_eq_K : skillsMatch = skillsMatchK := by
  funext a b
  unfold skillsMatch skillsMatchK
  rw [jsLevSimilar_eq_levSimilarK]

theorem skillMatchedBy_eq_K : skillMatchedBy = skillMatchedByK := by
  funext rs j
  unfold skillMatchedBy skillMatchedByK
  simp only [skillsMatch_eq_K]

theorem prefStep_eq_K : prefStep = prefStepK := by
  funext rs st p
  unfold prefStep prefStepK
  rw [skillMatchedBy_eq_K]

/-! ## Shared helper lemmas -/

/-- The keyword component score is `NaN` whenever the job supplies no
keywords (the source divides `0 / 0` in its density term). -/
theorem keywordScore_nil (resume : ResumeData) (jd : JobDescriptionData)
    (h : jd.keywords = []) : (calculateKeywordScore resume jd).score = none := by
  simp [calculateKeywordScore, h, kwScoreVal, jsDiv]

/-! ## Claim theorems -/

/-- C1: for every resume, job description and TF-IDF term list, the overall
score returned by `calculateATSScore` is `Math.round` applied once to the
weighted sum of the four unrounded component scores
(skills·0.40 + experience·0.30 + keywords·0.20 + formatting·0.10), and the
four weight constants sum to exactly 1. -/
theorem C1_overall_round_once (resume : ResumeData) (jd : JobDescriptionData)
    (tfidfTerms : List (String × ℚ)) :
    (calculateATSScore resume jd tfidfTerms).overallScore
      = oRound (oAdd (oAdd (oAdd
          (oMul (some (calculateSkillsScore resume jd).score) WEIGHTS.skills)
          (oMul (some (calculateExperienceScore resume jd tfidfTerms).score)
            WEIGHTS.experience))
          (oMul (calculateKeywordScore resume jd).score WEIGHTS.keywords))
          (oMul (some (calculateFormattingScore resume).score) WEIGHTS.formatting))
      ∧ WEIGHTS.skills + WEIGHTS.experience + WEIGHTS.keywords + WEIGHTS.formatting
          = 1 := by
  exact ⟨rfl, by norm_num [WEIGHTS]⟩

/-- C3: with an empty job keyword list the keyword component score is `NaN`
(`none`), not the defined value 0 the specification promises: the source
guards its match ratio against an empty list but then divides
`densityScore / keywords.length = 0 / 0`. -/
theorem C3_empty_keywords_score_NaN (resume : ResumeData)
    (jd : JobDescriptionData) (h : jd.keywords = []) :
    (calculateKeywordScore resume jd).score = none :=
  keywordScore_nil resume jd h

/-- Witness for C3 at the concrete empty-keyword input. -/
theorem C3_empty_keywords_score_NaN_witness :
    emptyKeywordJob.keywords = []
      ∧ (calculateKeywordScore emptyResume emptyKeywordJob).score = none :=
  ⟨rfl, C3_empty_keywords_score_NaN emptyResume emptyKeywordJob rfl⟩

/-- C6: `skillsMatch` is symmetric, and on the spec's four probe pairs it
returns true, false, true, true respectively. -/
theorem C6_skillsMatch_symmetric_and_examples :
    (∀ a b : String, skillsMatch a b = skillsMatch b a)
      ∧ skillsMatch ("JavaScript") ("js") = true
      ∧ skillsMatch ("Python") ("Java") = false
      ∧ skillsMatch ("Reactjs") ("React") = true
      ∧ skillsMatch ("postgres") ("postgresql") = true := by
  refine ⟨skillsMatch_symm, ?_, ?_, ?_, ?_⟩ <;>
    · rw [skillsMatch_eq_K]; decide

/-- C7 counterexample: on the spec's scenario the returned matched list is
`["react"]` (the engine reports normalized, lower-cased skills), not the
display form `["React"]` the claim states. -/
theorem C7_counterexample_matched_not_display :
    (calculateSkillsScore scenarioResume scenarioJob).matched ≠ [("React")]
      ∧ (calculateSkillsScore scenarioResume scenarioJob).missing ≠ [("AWS")] := by
  constructor <;>
    · simp only [calculateSkillsScore, skillMatchedBy_eq_K, prefStep_eq_K]
      decide

/-- C7 amended: on the spec's scenario `calculateSkillsScore` returns
matched `["react"]`, missing `["aws"]` (the normalized forms of the claim's
`["React"]` and `["AWS"]`), and a skills score of exactly
`(1/2)·80 + 0·20 = 40`. -/
theorem C7_scenario_normalized :
    (calculateSkillsScore scenarioResume scenarioJob).matched = [("react")]
      ∧ (calculateSkillsScore scenarioResume scenarioJob).missing = [("aws")]
      ∧ (calculateSkillsScore scenarioResume scenarioJob).score = 40 := by
  refine ⟨?_, ?_, ?_⟩
  · simp only [calculateSkillsScore, skillMatchedBy_eq_K, prefStep_eq_K]
    decide
  · simp only [calculateSkillsScore, skillMatchedBy_eq_K, prefStep_eq_K]
    decide
  · have h : (calculateSkillsScore scenarioResume scenarioJob).score
        = skillsScoreVal 1 2 0 1 := by
      simp only [calculateSkillsScore, skillMatchedBy_eq_K, prefStep_eq_K]
      rfl
    rw [h]
    norm_num [skillsScoreVal]

/-- The preferred-skills loop only appends elements of the scanned list that
match some resume skill. -/
theorem prefFold_spec (resumeSkills : List String) :
    ∀ (ps : List String) (st : ℕ × List String),
      ∃ extra : List String,
        (ps.foldl (prefStep resumeSkills) st).2 = st.2 ++ extra
          ∧ ∀ s ∈ extra, s ∈ ps ∧ skillMatchedBy resumeSkills s = true := by
  intro ps
  induction ps with
  | nil =>
    intro st
    exact ⟨[], by simp, by intro s hs; simp at hs⟩
  | cons p ps ih =>
    intro st
    rw [List.foldl_cons]
    obtain ⟨extra, hE, hMem⟩ := ih (prefStep resumeSkills st p)
    by_cases hp : skillMatchedBy resumeSkills p = true
    · by_cases hin : st.2.contains p = true
      · have hpm : p ∈ st.2 := List.mem_of_elem_eq_true hin
        refine ⟨extra, ?_, ?_⟩
        · rw [hE]
          simp [prefStep, hp, hin, hpm]
        · intro s hs
          obtain ⟨h1, h2⟩ := hMem s hs
          exact ⟨List.mem_cons_of_mem _ h1, h2⟩
      · have hpm : p ∉ st.2 := fun hm => hin (List.elem_eq_true_of_mem hm)
        refine ⟨p :: extra, ?_, ?_⟩
        · rw [hE]
          simp [prefStep, hp, hin, hpm]
        · intro s hs
          rcases List.mem_cons.mp hs with h | h
          · subst h
            exact ⟨List.mem_cons_self _ _, hp⟩
          · obtain ⟨h1, h2⟩ := hMem s h
            exact ⟨List.mem_cons_of_mem _ h1, h2⟩
    · refine ⟨extra, ?_, ?_⟩
      · rw [hE]
        simp [prefStep, hp]
      · intro s hs
        obtain ⟨h1, h2⟩ := hMem s hs
        exact ⟨List.mem_cons_of_mem _ h1, h2⟩

/-- C2 counterexample: with resume skills `[]` and `requiredSkills =
["React"]`, the engine returns `missing = ["react"]` (the normalized form),
so the required element `"React"` appears in neither returned list — the
lists do not partition the `requiredSkills` input as stated. -/
theorem C2_counterexample :
    (calculateSkillsScore emptyResume reactRequiredJob).missing = [("react")]
      ∧ ("React") ∉ (calculateSkillsScore emptyResume reactRequiredJob).matched
      ∧ ("React") ∉ (calculateSkillsScore emptyResume reactRequiredJob).missing := by
  refine ⟨?_, ?_, ?_⟩ <;>
    · simp only [calculateSkillsScore, skillMatchedBy_eq_K, prefStep_eq_K]
      decide

/-- C2 amended: `matchedSkills` and `missingSkills` partition the
*normalized* required skills: `missing` is exactly the non-matching
normalized required skills in input order, `matched` starts with the
matching normalized required skills in input order followed only by matched
normalized preferred skills, every normalized required skill lands in one
of the two lists, and no string is in both. -/
theorem C2_partition_normalized (resume : ResumeData) (jd : JobDescriptionData) :
    (calculateSkillsScore resume jd).missing
        = (normalizeSkills jd.requiredSkills).filter
            (fun s => !(skillMatchedBy (normalizeSkills resume.skills) s))
      ∧ (∃ extra,
          (calculateSkillsScore resume jd).matched
              = (normalizeSkills jd.requiredSkills).filter
                  (fun s => skillMatchedBy (normalizeSkills resume.skills) s) ++ extra
            ∧ ∀ s ∈ extra, s ∈ normalizeSkills jd.preferredSkills
                ∧ skillMatchedBy (normalizeSkills resume.skills) s = true)
      ∧ (∀ s ∈ normalizeSkills jd.requiredSkills,
          s ∈ (calculateSkillsScore resume jd).matched
            ∨ s ∈ (calculateSkillsScore resume jd).missing)
      ∧ (∀ s, s ∈ (calculateSkillsScore resume jd).matched
            → s ∉ (calculateSkillsScore resume jd).missing) := by
  obtain ⟨extra, hE, hMem⟩ := prefFold_spec (normalizeSkills resume.skills)
    (normalizeSkills jd.preferredSkills)
    (0, (normalizeSkills jd.requiredSkills).filter
      (fun s => skillMatchedBy (normalizeSkills resume.skills) s))
  have hMatch : (calculateSkillsScore resume jd).matched
      = (normalizeSkills jd.requiredSkills).filter
          (fun s => skillMatchedBy (normalizeSkills resume.skills) s) ++ extra := hE
  have hMiss : (calculateSkillsScore resume jd).missing
      = (normalizeSkills jd.requiredSkills).filter
          (fun s => !(skillMatchedBy (normalizeSkills resume.skills) s)) := rfl
  refine ⟨hMiss, ⟨extra, hMatch, hMem⟩, ?_, ?_⟩
  · intro s hs
    by_cases hp : skillMatchedBy (normalizeSkills resume.skills) s = true
    · left
      rw [hMatch]
      exact List.mem_append_left _ (List.mem_filter.mpr ⟨hs, hp⟩)
    · right
      rw [hMiss]
      refine List.mem_filter.mpr ⟨hs, ?_⟩
      simp [hp]
  · intro s hsm hsn
    have hpf : skillMatchedBy (normalizeSkills resume.skills) s = false := by
      rw [hMiss] at hsn
      have := (List.mem_filter.mp hsn).2
      simpa using this
    rw [hMatch] at hsm
    rcases List.mem_append.mp hsm with h | h
    · have := (List.mem_filter.mp h).2
      rw [hpf] at this
      exact Bool.false_ne_true this
    · have := (hMem s h).2
      rw [hpf] at this
      exact Bool.false_ne_true this

set_option maxRecDepth 100000 in
/-- C9 counterexample: on `bulletResumeCx` the engine returns 75 (−25 for
the missing result cues) while the claim's penalty table predicts 90 (−10),
so the claim's −10/−25 assignment for result/context is swapped relative to
the code. -/
theorem C9_counterexample_penalty_swap :
    (analyzeBulletPoints bulletResumeCx).score ≠ specBulletScore bulletResumeCx
      ∧ (analyzeBulletPoints bulletResumeCx).score = 75
      ∧ specBulletScore bulletResumeCx = 90 := by
  refine ⟨?_, ?_, ?_⟩ <;>
    · simp only [analyzeBulletPoints, specBulletScore, jsHalfLt_eq]
      decide

/-- C9 amended: the bullet-point score starts at 100 and applies exactly
the penalties −30 (fewer than 3 bullet lines), −25 (action cues absent),
−25 (result cues absent), −10 (context cues absent), −10 (some bullet line
over 150 characters), −10 (more than half the bullet lines under 30
characters), floored at 0 — i.e. the claim's table with the result and
context penalties swapped. -/
theorem C9_bullet_score_formula (resume : ParsedResume) :
    (analyzeBulletPoints resume).score =
      max 0 (100
        - (if bulletCount (String.intercalate ("\n") resume.experience).data < 3
            then 30 else 0)
        - (if cueTest actionCues (String.intercalate ("\n") resume.experience)
            then 0 else 25)
        - (if cueTest resultCues (String.intercalate ("\n") resume.experience)
            then 0 else 25)
        - (if cueTest contextCues (String.intercalate ("\n") resume.experience)
            then 0 else 10)
        - (if ((bulletLines (String.intercalate ("\n") resume.experience).data).filter
              (fun l => l.length > 150)).length > 0 then 10 else 0)
        - (if jsHalfLt
              ((bulletLines (String.intercalate ("\n") resume.experience).data).filter
                (fun l => l.length < 30)).length
              (bulletLines (String.intercalate ("\n") resume.experience).data).length
            then 10 else 0)) := by
  simp only [analyzeBulletPoints]
  split_ifs <;> omega

/-- The keyword loop state depends on the resume text only through, for each
keyword, whether it occurs and its capped density contribution. -/
theorem kwFold_congr (t1 t2 : List Char) :
    ∀ (ks : List String) (st : List String × List String × ℕ),
      (∀ kw ∈ ks,
        (0 < kwCount t1 kw.data ↔ 0 < kwCount t2 kw.data)
          ∧ min (kwCount t1 kw.data * 5) 15 = min (kwCount t2 kw.data * 5) 15) →
      ks.foldl (kwStep t1) st = ks.foldl (kwStep t2) st := by
  intro ks
  induction ks with
  | nil => intro st _; rfl
  | cons k ks ih =>
    intro st h
    rw [List.foldl_cons, List.foldl_cons]
    have hk := h k (List.mem_cons_self _ _)
    have hstep : kwStep t1 st k = kwStep t2 st k := by
      unfold kwStep
      by_cases hp : 0 < kwCount t1 k.data
      · rw [if_pos hp, if_pos (hk.1.mp hp), hk.2]
      · rw [if_neg hp, if_neg (fun hp2 => hp (hk.1.mpr hp2))]
    rw [hstep]
    exact ih (kwStep t2 st k) (fun kw hkw => h kw (List.mem_cons_of_mem _ hkw))

/-- C8: keyword occurrence counts at or above 3 earn no extra density
credit: two resumes whose lower-cased contents give the same occurrence
count for every keyword except one, counted 3 times in the first and 100
times in the second, receive the same keyword score. -/
theorem C8_keyword_saturation (r1 r2 : ResumeData) (jd : JobDescriptionData)
    (kLow : String)
    (h3 : kwCount (jsToLower r1.content).data kLow.data = 3)
    (h100 : kwCount (jsToLower r2.content).data kLow.data = 100)
    (hoth : ∀ kw ∈ jd.keywords.map jsToLower, kw ≠ kLow →
      kwCount (jsToLower r1.content).data kw.data
        = kwCount (jsToLower r2.content).data kw.data) :
    (calculateKeywordScore r1 jd).score = (calculateKeywordScore r2 jd).score := by
  have hfold : (jd.keywords.map jsToLower).foldl
        (kwStep (jsToLower r1.content).data) ([], [], 0)
      = (jd.keywords.map jsToLower).foldl
        (kwStep (jsToLower r2.content).data) ([], [], 0) := by
    apply kwFold_congr
    intro kw hkw
    by_cases hkl : kw = kLow
    · subst hkl
      rw [h3, h100]
      exact ⟨by norm_num, by norm_num⟩
    · rw [hoth kw hkw hkl]
      exact ⟨Iff.rfl, rfl⟩
  simp only [calculateKeywordScore]
  rw [hfold]

set_option maxRecDepth 100000 in
/-- Witness for C8: the 3-mention and 100-mention resumes score
identically on the single keyword `sql`. -/
theorem C8_keyword_saturation_witness :
    kwCount (jsToLower satResume3.content).data (("sql") : String).data = 3
      ∧ kwCount (jsToLower satResume100.content).data (("sql") : String).data = 100
      ∧ (∀ kw ∈ satJob.keywords.map jsToLower, kw ≠ ("sql") →
          kwCount (jsToLower satResume3.content).data kw.data
            = kwCount (jsToLower satResume100.content).data kw.data)
      ∧ (calculateKeywordScore satResume3 satJob).score
          = (calculateKeywordScore satResume100 satJob).score := by
  have h3 : kwCount (jsToLower satResume3.content).data (("sql") : String).data = 3 := by
    decide
  have h100 : kwCount (jsToLower satResume100.content).data
      (("sql") : String).data = 100 := by
    decide
  have hoth : ∀ kw ∈ satJob.keywords.map jsToLower, kw ≠ ("sql") →
      kwCount (jsToLower satResume3.content).data kw.data
        = kwCount (jsToLower satResume100.content).data kw.data := by
    have hmap : satJob.keywords.map jsToLower = [("sql")] := by decide
    intro kw hkw hne
    rw [hmap] at hkw
    exact absurd (List.mem_singleton.mp hkw) hne
  exact ⟨h3, h100, hoth,
    C8_keyword_saturation satResume3 satResume100 satJob ("sql") h3 h100 hoth⟩

theorem setAdd_mem_self (l : List String) (s : String) : s ∈ setAdd l s := by
  unfold setAdd
  by_cases h : l.contains s = true
  · rw [if_pos h]
    exact List.mem_of_elem_eq_true h
  · rw [if_neg h]
    exact List.mem_append_right _ (List.mem_singleton.mpr rfl)

theorem setAdd_mono (l : List String) (s a : String) (h : a ∈ l) :
    a ∈ setAdd l s := by
  unfold setAdd
  split
  · exact h
  · exact List.mem_append_left _ h

/-- Once a skill is in the accumulator, or scheduled with a true condition,
the whole-document scan keeps or adds it. -/
theorem commonFold_mem (lower : List Char) :
    ∀ (ks : List String) (acc : List String) (skill : String),
      (skill ∈ acc ∨ (skill ∈ ks ∧ listHas lower (jsToLower skill).data = true)) →
      skill ∈ ks.foldl (commonStep lower) acc := by
  intro ks
  induction ks with
  | nil =>
    intro acc skill h
    rcases h with h | ⟨h, _⟩
    · exact h
    · simp at h
  | cons k ks ih =>
    intro acc skill h
    rw [List.foldl_cons]
    rcases h with h | ⟨hmem, hs⟩
    · refine ih _ skill (Or.inl ?_)
      unfold commonStep
      split
      · exact setAdd_mono _ _ _ h
      · exact h
    · rcases List.mem_cons.mp hmem with heq | hmem'
      · subst heq
        refine ih _ skill (Or.inl ?_)
        unfold commonStep
        rw [if_pos hs]
        exact setAdd_mem_self _ _
      · exact ih _ skill (Or.inr ⟨hmem', hs⟩)

/-- C10: the whole-document scan of `extractSkills` is raw case-insensitive
substring containment: whenever a vocabulary skill's lower-cased name
occurs anywhere in the lower-cased content — word boundaries or not — that
skill is in the returned set. -/
theorem C10_common_skill_substring_scan (content skill : String)
    (hmem : skill ∈ commonSkills)
    (hsub : listHas (jsToLower content).data (jsToLower skill).data = true) :
    skill ∈ extractSkills content := by
  unfold extractSkills
  exact commonFold_mem _ commonSkills _ skill (Or.inr ⟨hmem, hsub⟩)

/-- Witness for C10: the word `"maintain"` contains the letters `ai`, so the
scan reports the skill `"AI"` for a document that never mentions AI. -/
theorem C10_common_skill_substring_scan_witness :
    (("AI") : String) ∈ commonSkills
      ∧ listHas (jsToLower ("maintain")).data (jsToLower (("AI") : String)).data = true
      ∧ (("AI") : String) ∈ extractSkills ("maintain") := by
  have h1 : (("AI") : String) ∈ commonSkills := by decide
  have h2 : listHas (jsToLower ("maintain")).data
      (jsToLower (("AI") : String)).data = true := by decide
  exact ⟨h1, h2, C10_common_skill_substring_scan ("maintain") ("AI") h1 h2⟩

theorem skillsScoreVal_bounds (a b c d : ℕ) :
    0 ≤ skillsScoreVal a b c d ∧ skillsScoreVal a b c d ≤ 100 := by
  unfold skillsScoreVal
  refine ⟨le_min (by norm_num) ?_, min_le_left _ _⟩
  split_ifs <;> positivity

theorem expFold_bounds (resumeText : List Char) :
    ∀ l : List (String × ℚ), (∀ it ∈ l, 0 ≤ it.2) →
      ∀ a b : ℚ, 0 ≤ b → b ≤ a →
        0 ≤ (l.foldl (expStep resumeText) (a, b)).2
          ∧ (l.foldl (expStep resumeText) (a, b)).2
            ≤ (l.foldl (expStep resumeText) (a, b)).1 := by
  intro l
  induction l with
  | nil =>
    intro _ a b h0 h1
    exact ⟨h0, h1⟩
  | cons it l ih =>
    intro h a b h0 h1
    have hw : 0 ≤ it.2 := h it (List.mem_cons_self _ _)
    rw [List.foldl_cons]
    have hrest : ∀ jt ∈ l, 0 ≤ jt.2 := fun jt hj => h jt (List.mem_cons_of_mem _ hj)
    unfold expStep
    split_ifs
    · exact ih hrest (a + it.2) (b + it.2) (by linarith) (by linarith)
    · exact ih hrest (a + it.2) b h0 (by linarith)

theorem expScoreVal_bounds (tw mc : ℚ) (h0 : 0 ≤ mc) (h1 : mc ≤ tw) :
    0 ≤ expScoreVal tw mc ∧ expScoreVal tw mc ≤ 100 := by
  unfold expScoreVal
  split_ifs with h
  · constructor
    · have := div_nonneg h0 (le_of_lt h)
      linarith
    · have hd : mc / tw ≤ 1 := (div_le_one h).mpr h1
      linarith
  · norm_num

theorem kwScoreVal_some_bounds (a b c : ℕ) (hb : 0 < b) :
    ∃ q, kwScoreVal a b c = some q ∧ 0 ≤ q ∧ q ≤ 100 := by
  unfold kwScoreVal jsDiv
  have hbQ : ((b : ℚ)) ≠ 0 := by
    exact_mod_cast Nat.pos_iff_ne_zero.mp hb
  rw [if_neg hbQ]
  refine ⟨_, rfl, ?_, min_le_left _ _⟩
  refine le_min (by norm_num) ?_
  have hfrac : (0 : ℚ) ≤ (if b > 0 then (a : ℚ) / b else 0) := by
    split_ifs <;> positivity
  have hdens : (0 : ℚ) ≤ (c : ℚ) / b * 30 := by positivity
  linarith

theorem fmtScoreVal_bounds (b1 b2 b3 b4 b5 : Bool) :
    0 ≤ fmtScoreVal b1 b2 b3 b4 b5 ∧ fmtScoreVal b1 b2 b3 b4 b5 ≤ 100 := by
  unfold fmtScoreVal
  refine ⟨le_max_left _ _, max_le (by norm_num) ?_⟩
  split_ifs <;> norm_num

theorem jsRound_bounds (x : ℚ) (h0 : 0 ≤ x) (h1 : x ≤ 100) :
    0 ≤ jsRound x ∧ jsRound x ≤ 100 := by
  unfold jsRound
  constructor
  · apply Int.le_floor.mpr
    push_cast
    linarith
  · have hlt : ⌊x + 1/2⌋ < 101 := by
      apply Int.floor_lt.mpr
      push_cast
      linarith
  
    omega

theorem calculateSkillsScore_score_bounds (r : ResumeData) (jd : JobDescriptionData) :
    0 ≤ (calculateSkillsScore r jd).score ∧ (calculateSkillsScore r jd).score ≤ 100 :=
  skillsScoreVal_bounds _ _ _ _

theorem calculateExperienceScore_score_bounds (r : ResumeData)
    (jd : JobDescriptionData) (tfidfTerms : List (String × ℚ))
    (hw : ∀ it ∈ tfidfTerms, 0 ≤ it.2) :
    0 ≤ (calculateExperienceScore r jd tfidfTerms).score
      ∧ (calculateExperienceScore r jd tfidfTerms).score ≤ 100 := by
  have hw' : ∀ it ∈ (tfidfTerms.filter (fun it => it.1.length > 3)).take 20, 0 ≤ it.2 :=
    fun it hit => hw it (List.mem_of_mem_filter (List.take_subset _ _ hit))
  obtain ⟨h0, h1⟩ := expFold_bounds (jsToLower r.content).data
    ((tfidfTerms.filter (fun it => it.1.length > 3)).take 20) hw' 0 0 le_rfl le_rfl
  exact expScoreVal_bounds _ _ h0 h1

theorem calculateKeywordScore_some_bounds (r : ResumeData) (jd : JobDescriptionData)
    (hkw : jd.keywords ≠ []) :
    ∃ q, (calculateKeywordScore r jd).score = some q ∧ 0 ≤ q ∧ q ≤ 100 := by
  have hlen : 0 < (jd.keywords.map jsToLower).length := by
    rw [List.length_map]
    exact List.length_pos.mpr hkw
  exact kwScoreVal_some_bounds _ _ _ hlen

theorem calculateFormattingScore_score_bounds (r : ResumeData) :
    0 ≤ (calculateFormattingScore r).score
      ∧ (calculateFormattingScore r).score ≤ 100 :=
  fmtScoreVal_bounds _ _ _ _ _

/-- C4 counterexample: with an empty job keyword list the keyword component
is `NaN`, and the `NaN` propagates through the weighted sum, so the overall
score is `NaN` (`none`) rather than a real number in [0, 100]. -/
theorem C4_counterexample_overall_NaN :
    (calculateATSScore emptyResume emptyKeywordJob []).overallScore = none
      ∧ (calculateATSScore emptyResume emptyKeywordJob []).keywordScore = none := by
  have hk := keywordScore_nil emptyResume emptyKeywordJob rfl
  constructor
  · simp [calculateATSScore, hk, oMul, oAdd, oRound]
  · simp [calculateATSScore, hk, oRound]

/-- C4 amended: provided the job supplies at least one keyword (otherwise
the keyword and overall scores are `NaN`, see the counterexample) and the
abstract TF-IDF weights are non-negative (as the library's always are), the
overall score and all four component scores returned by `calculateATSScore`
are in [0, 100]. -/
theorem C4_scores_bounded (resume : ResumeData) (jd : JobDescriptionData)
    (tfidfTerms : List (String × ℚ)) (hkw : jd.keywords ≠ [])
    (hw : ∀ it ∈ tfidfTerms, 0 ≤ it.2) :
    (∃ z, (calculateATSScore resume jd tfidfTerms).overallScore = some z
        ∧ 0 ≤ z ∧ z ≤ 100)
      ∧ (0 ≤ (calculateATSScore resume jd tfidfTerms).skillsScore
          ∧ (calculateATSScore resume jd tfidfTerms).skillsScore ≤ 100)
      ∧ (0 ≤ (calculateATSScore resume jd tfidfTerms).experienceScore
          ∧ (calculateATSScore resume jd tfidfTerms).experienceScore ≤ 100)
      ∧ (∃ z, (calculateATSScore resume jd tfidfTerms).keywordScore = some z
          ∧ 0 ≤ z ∧ z ≤ 100)
      ∧ (0 ≤ (calculateATSScore resume jd tfidfTerms).formattingScore
          ∧ (calculateATSScore resume jd tfidfTerms).formattingScore ≤ 100) := by
  obtain ⟨hs0, hs1⟩ := calculateSkillsScore_score_bounds resume jd
  obtain ⟨he0, he1⟩ := calculateExperienceScore_score_bounds resume jd tfidfTerms hw
  obtain ⟨q, hq, hq0, hq1⟩ := calculateKeywordScore_some_bounds resume jd hkw
  obtain ⟨hf0, hf1⟩ := calculateFormattingScore_score_bounds resume
  have hov : (calculateATSScore resume jd tfidfTerms).overallScore
      = some (jsRound ((calculateSkillsScore resume jd).score * WEIGHTS.skills
          + (calculateExperienceScore resume jd tfidfTerms).score * WEIGHTS.experience
          + q * WEIGHTS.keywords
          + (calculateFormattingScore resume).score * WEIGHTS.formatting)) := by
    simp [calculateATSScore, hq, oMul, oAdd, oRound]
  have hwv : WEIGHTS.skills = 2/5 ∧ WEIGHTS.experience = 3/10
      ∧ WEIGHTS.keywords = 1/5 ∧ WEIGHTS.formatting = 1/10 := by
    refine ⟨?_, ?_, ?_, ?_⟩ <;> norm_num [WEIGHTS]
  obtain ⟨hv1, hv2, hv3, hv4⟩ := hwv
  have hx0 : 0 ≤ (calculateSkillsScore resume jd).score * WEIGHTS.skills
      + (calculateExperienceScore resume jd tfidfTerms).score * WEIGHTS.experience
      + q * WEIGHTS.keywords
      + (calculateFormattingScore resume).score * WEIGHTS.formatting := by
    rw [hv1, hv2, hv3, hv4]
    linarith
  have hx1 : (calculateSkillsScore resume jd).score * WEIGHTS.skills
      + (calculateExperienceScore resume jd tfidfTerms).score * WEIGHTS.experience
      + q * WEIGHTS.keywords
      + (calculateFormattingScore resume).score * WEIGHTS.formatting ≤ 100 := by
    rw [hv1, hv2, hv3, hv4]
    linarith
  obtain ⟨ho0, ho1⟩ := jsRound_bounds _ hx0 hx1
  refine ⟨⟨_, hov, ho0, ho1⟩, ?_, ?_, ?_, ?_⟩
  · exact jsRound_bounds _ hs0 hs1
  · exact jsRound_bounds _ he0 he1
  · have hkres : (calculateATSScore resume jd tfidfTerms).keywordScore
        = some (jsRound q) := by
      simp [calculateATSScore, hq, oRound]
    exact ⟨jsRound q, hkres, jsRound_bounds q hq0 hq1⟩
  · exact jsRound_bounds _ hf0 hf1

/-- Witness for C4 amended, at an empty resume against the single-keyword
job. -/
theorem C4_scores_bounded_witness :
    satJob.keywords ≠ []
      ∧ (∀ it ∈ ([] : List (String × ℚ)), 0 ≤ it.2)
      ∧ ((∃ z, (calculateATSScore emptyResume satJob []).overallScore = some z
            ∧ 0 ≤ z ∧ z ≤ 100)
        ∧ (0 ≤ (calculateATSScore emptyResume satJob []).skillsScore
            ∧ (calculateATSScore emptyResume satJob []).skillsScore ≤ 100)
        ∧ (0 ≤ (calculateATSScore emptyResume satJob []).experienceScore
            ∧ (calculateATSScore emptyResume satJob []).experienceScore ≤ 100)
        ∧ (∃ z, (calculateATSScore emptyResume satJob []).keywordScore = some z
            ∧ 0 ≤ z ∧ z ≤ 100)
        ∧ (0 ≤ (calculateATSScore emptyResume satJob []).formattingScore
            ∧ (calculateATSScore emptyResume satJob []).formattingScore ≤ 100)) := by
  have h1 : satJob.keywords ≠ [] := by decide
  have h2 : ∀ it ∈ ([] : List (String × ℚ)), 0 ≤ it.2 := by
    intro it hit
    simp at hit
  exact ⟨h1, h2, C4_scores_bounded emptyResume satJob [] h1 h2⟩

theorem head?_append_left (p s : String) (c : Char) (h : p.data.head? = some c) :
    (p ++ s).data.head? = some c := by
  rw [String.data_append]
  match hp : p.data with
  | [] => rw [hp] at h; simp at h
  | d :: ds =>
    rw [hp] at h
    simpa using h

theorem str_append_left_cancel (p : String) : ∀ a b : String, p ++ a = p ++ b → a = b := by
  intro a b h
  have hd : p.data ++ a.data = p.data ++ b.data := by
    rw [← String.data_append, ← String.data_append, h]
  have hab : a.data = b.data := List.append_cancel_left hd
  cases a
  cases b
  exact congrArg String.mk hab

theorem mem_ite_singleton {c : Prop} [Decidable c] {x s : String}
    (h : s ∈ (if c then [x] else [])) : s = x := by
  split at h
  · simpa using h
  · simp at h

theorem nodup_ite_singleton {c : Prop} [Decidable c] (x : String) :
    (if c then [x] else ([] : List String)).Nodup := by
  split <;> simp

theorem len_ite_singleton {c : Prop} [Decidable c] (x : String) :
    (if c then [x] else ([] : List String)).length ≤ 1 := by
  split <;> simp

theorem disjoint_of_heads {l1 l2 : List String} {c1 c2 : Char}
    (h1 : ∀ s ∈ l1, s.data.head? = some c1)
    (h2 : ∀ s ∈ l2, s.data.head? = some c2) (hne : c1 ≠ c2) :
    l1.Disjoint l2 := by
  intro s hs1 hs2
  have e1 := h1 s hs1
  have e2 := h2 s hs2
  rw [e1] at e2
  exact hne (Option.some.inj e2)

theorem issues_sublist (r : ResumeData) :
    (calculateFormattingScore r).issues.Sublist allIssueStrings := by
  simp only [calculateFormattingScore]
  split_ifs <;> decide

/-- The suggestion list is duplicate-free and has at most 10 entries, for
any component analyses whose formatting issues come from the fixed issue
vocabulary. -/
theorem generateSuggestions_nodup_len (sa : SkillsAnalysis) (ea : ExperienceAnalysis)
    (ka : KeywordAnalysis) (fa : FormattingAnalysis)
    (hsub : fa.issues.Sublist allIssueStrings) :
    (generateSuggestions sa ea ka fa).Nodup
      ∧ (generateSuggestions sa ea ka fa).length ≤ 10 := by
  have hIssNodup : fa.issues.Nodup := (by decide : allIssueStrings.Nodup).sublist hsub
  have hIssLen : fa.issues.length ≤ 5 := by
    have h := hsub.length_le
    simpa [allIssueStrings] using h
  simp only [generateSuggestions]
  set b1 := (if sa.score < 70 ∧ sa.missing.length > 0 then
    [("Add these critical skills: "
        ++ String.intercalate (", ") (sa.missing.take 5))] else []) with hb1
  set b2 := (if ea.score < 60 then
    [("Expand your experience descriptions to include more relevant keywords and achievements")]
    else []) with hb2
  set b3 := (if oLt ka.score 70 ∧ ka.missing.length > 0 then
    [("Include these important keywords: "
        ++ String.intercalate (", ") (ka.missing.take 5))] else []) with hb3
  set m4 := fa.issues.map (fun issue => ("Formatting: " ++ issue)) with hm4
  set b5 := (if sa.score ≥ 80 ∧ oGe ka.score 80 then
    [("Excellent keyword optimization! Consider quantifying your achievements with metrics.")]
    else []) with hb5
  have hA : ∀ s ∈ b1, s.data.head? = some 'A' := by
    intro s hs
    rw [hb1] at hs
    rw [mem_ite_singleton hs]
    exact head?_append_left _ _ _ (by decide)
  have hE : ∀ s ∈ b2, s.data.head? = some 'E' := by
    intro s hs
    rw [hb2] at hs
    rw [mem_ite_singleton hs]
    decide
  have hI : ∀ s ∈ b3, s.data.head? = some 'I' := by
    intro s hs
    rw [hb3] at hs
    rw [mem_ite_singleton hs]
    exact head?_append_left _ _ _ (by decide)
  have hF : ∀ s ∈ m4, s.data.head? = some 'F' := by
    intro s hs
    rw [hm4] at hs
    obtain ⟨i, _, rfl⟩ := List.mem_map.mp hs
    exact head?_append_left _ _ _ (by decide)
  have hG : ∀ s ∈ b5, s.data.head? = some 'E' := by
    intro s hs
    rw [hb5] at hs
    rw [mem_ite_singleton hs]
    decide
  have n1 : b1.Nodup := by rw [hb1]; exact nodup_ite_singleton _
  have n2 : b2.Nodup := by rw [hb2]; exact nodup_ite_singleton _
  have n3 : b3.Nodup := by rw [hb3]; exact nodup_ite_singleton _
  have nm : m4.Nodup := by
    rw [hm4]
    exact hIssNodup.map (fun a b h => str_append_left_cancel _ a b h)
  have n5 : b5.Nodup := by rw [hb5]; exact nodup_ite_singleton _
  have d12 : b1.Disjoint b2 := disjoint_of_heads hA hE (by decide)
  have d13 : b1.Disjoint b3 := disjoint_of_heads hA hI (by decide)
  have d1m : b1.Disjoint m4 := disjoint_of_heads hA hF (by decide)
  have d15 : b1.Disjoint b5 := disjoint_of_heads hA hG (by decide)
  have d23 : b2.Disjoint b3 := disjoint_of_heads hE hI (by decide)
  have d2m : b2.Disjoint m4 := disjoint_of_heads hE hF (by decide)
  have d25 : b2.Disjoint b5 := by
    intro s hs2 hs5
    rw [hb2] at hs2
    rw [hb5] at hs5
    have e2 := mem_ite_singleton hs2
    have e5 := mem_ite_singleton hs5
    rw [e2] at e5
    exact absurd e5 (by decide)
  have d3m : b3.Disjoint m4 := disjoint_of_heads hI hF (by decide)
  have d35 : b3.Disjoint b5 := disjoint_of_heads hI hG (by decide)
  have dm5 : m4.Disjoint b5 := disjoint_of_heads hF hG (by decide)
  constructor
  · have n12 : (b1 ++ b2).Nodup := n1.append n2 d12
    have n123 : ((b1 ++ b2) ++ b3).Nodup :=
      n12.append n3 (List.disjoint_append_left.mpr ⟨d13, d23⟩)
    have n123m : (((b1 ++ b2) ++ b3) ++ m4).Nodup :=
      n123.append nm (List.disjoint_append_left.mpr
        ⟨List.disjoint_append_left.mpr ⟨d1m, d2m⟩, d3m⟩)
    exact n123m.append n5 (List.disjoint_append_left.mpr
      ⟨List.disjoint_append_left.mpr
        ⟨List.disjoint_append_left.mpr ⟨d15, d25⟩, d35⟩, dm5⟩)
  · have l1 : b1.length ≤ 1 := by rw [hb1]; exact len_ite_singleton _
    have l2 : b2.length ≤ 1 := by rw [hb2]; exact len_ite_singleton _
    have l3 : b3.length ≤ 1 := by rw [hb3]; exact len_ite_singleton _
    have lm : m4.length ≤ 5 := by
      rw [hm4, List.length_map]
      exact hIssLen
    have l5 : b5.length ≤ 1 := by rw [hb5]; exact len_ite_singleton _
    simp only [List.length_append]
    omega

/-- C5: for every resume, job description and TF-IDF term list, the
suggestions in the returned `ATSScoreResult` contain no two equal entries
and number at most 10 (at most 9 = 1+1+1+5+1 are even constructible). -/
theorem C5_suggestions_nodup_capped (resume : ResumeData) (jd : JobDescriptionData)
    (tfidfTerms : List (String × ℚ)) :
    (calculateATSScore resume jd tfidfTerms).suggestions.Nodup
      ∧ (calculateATSScore resume jd tfidfTerms).suggestions.length ≤ 10 :=
  generateSuggestions_nodup_len (calculateSkillsScore resume jd)
    (calculateExperienceScore resume jd tfidfTerms)
    (calculateKeywordScore resume jd)
    (calculateFormattingScore resume)
    (issues_sublist resume)
